import Mathlib

/-!
Shallow embedding of `plugin/post-processor.go` from the
`packer-post-processor-amazon-ami-management` repository, together with
proofs about the retention algorithm it implements.

The Go code queries EC2 images by tag, sorts them by creation date
descending with a hand-rolled adjacent-swap sort, and deletes every image
past `keep_releases`, cascading to the images' EBS snapshots, aborting on
the first provider error.  We model the provider as an oracle (a record of
response functions), execution as a trace of emitted UI messages and API
calls plus a final result triple, and prove the spec's claims about it.
-/

namespace AmiMgmt

/-! ## Data model (the fields of `ec2.Image` the code reads) -/

/-- `device.Ebs`: the EBS backing of one block device mapping.  The code only
reads `SnapshotId`. -/
structure Ebs where
  snapshotId : String
deriving Repr, DecidableEq

/-- One entry of `image.BlockDeviceMappings`; `ebs = none` models
`device.Ebs == nil` (an ephemeral device with no backing snapshot). -/
structure BlockDeviceMapping where
  ebs : Option Ebs
deriving Repr, DecidableEq

/-- The fields of `ec2.Image` the post-processor reads: `ImageId`,
`CreationDate` (a string, parsed during sorting) and
`BlockDeviceMappings`. -/
structure Image where
  imageId : String
  creationDate : String
  blockDeviceMappings : List BlockDeviceMapping
deriving Repr, DecidableEq

/-! ## Model of `time.Parse("2006-01-02T15:04:05.000Z", s)` and `Time.After`

The layout accepts the form `YYYY-MM-DDTH:MM:SS.mmmZ` with a one- or
two-digit hour — Go reads the layout token `15` with `getnum` in non-fixed
mode, so both widths parse (the trailing `Z` is a literal character in this
layout, not a zone token): four year digits (unchecked range 0000-9999),
then zero-padded month, day, minute, second and the hour, with Go's range
checks (month 1-12, day 1-`daysIn(month, year)`, hour <= 23, minute <= 59,
second <= 59), then a fractional separator that is `.` or `,` (Go accepts
the comma since 1.17), exactly three fractional digits, and the literal
`Z`, with nothing after it.  So the accepted strings are exactly the
24-character two-digit-hour and 23-character one-digit-hour instances.
All parsed values are UTC, so Go's `Time.After` is the strict
chronological order, i.e. the lexicographic order on
(year, month, day, hour, minute, second, millis); `key` encodes that order
into `Nat` by a mixed-radix encoding whose radices bound each component.
`time.Parse` on failure leaves the zero `time.Time` (January 1 of year 1,
00:00:00.000 UTC), which the Go code uses without checking the error. -/

structure GoTime where
  year : Nat
  month : Nat
  day : Nat
  hour : Nat
  minute : Nat
  second : Nat
  millis : Nat
deriving Repr, DecidableEq

/-- Mixed-radix timeline encoding; strictly monotone in the chronological
order for all component values produced by the parser or the zero value
(month <= 12 < 13, day <= 31 < 32, hour <= 23 < 24, minute, second <= 59 < 60,
millis <= 999 < 1000). -/
def GoTime.key (t : GoTime) : Nat :=
  ((((((t.year * 13 + t.month) * 32 + t.day) * 24 + t.hour) * 60 +
      t.minute) * 60 + t.second) * 1000 + t.millis)

/-- The zero `time.Time`: January 1, year 1, 00:00:00.000 UTC. -/
def zeroTime : GoTime := ⟨1, 1, 1, 0, 0, 0, 0⟩

/-- `t.After u`: strict chronological order. -/
def GoTime.after (t u : GoTime) : Bool := u.key < t.key

/-- Value of one ASCII digit, `none` on a non-digit (Go's `isDigit`). -/
def digitVal (c : Char) : Option Nat :=
  if '0' ≤ c ∧ c ≤ '9' then some (c.toNat - '0'.toNat) else none

def num2 (a b : Char) : Option Nat := do
  let x ← digitVal a
  let y ← digitVal b
  pure (x * 10 + y)

def num3 (a b c : Char) : Option Nat := do
  let x ← digitVal a
  let y ← num2 b c
  pure (x * 100 + y)

def num4 (a b c d : Char) : Option Nat := do
  let x ← num2 a b
  let y ← num2 c d
  pure (x * 100 + y)

/-- Go's `isLeap`. -/
def isLeap (y : Nat) : Bool := y % 4 == 0 && (y % 100 != 0 || y % 400 == 0)

/-- Go's `daysIn(m, year)` for m in 1..12. -/
def daysIn (month year : Nat) : Nat :=
  if month = 2 then (if isLeap year then 29 else 28)
  else if month = 4 ∨ month = 6 ∨ month = 9 ∨ month = 11 then 30
  else 31

/-- Go's range checks on the parsed fields (`month out of range`,
`day out of range`, and the inline hour/minute/second checks), then the
assembled `time.Time`. -/
def mkParsed (y mo da h mi se f : Nat) : Option GoTime :=
  if 1 ≤ mo ∧ mo ≤ 12 ∧ 1 ≤ da ∧ da ≤ daysIn mo y ∧ h ≤ 23 ∧
      mi ≤ 59 ∧ se ≤ 59 then
    some ⟨y, mo, da, h, mi, se, f⟩
  else none

/-- `time.Parse("2006-01-02T15:04:05.000Z", s)`: `some` of the parsed time,
`none` on any parse error.  The hour token `15` is non-fixed width, so a
one-digit hour consumes one character less and the whole value is 23
characters instead of 24 (every other numeric token is fixed width, and
any other length leaves a literal mismatch or trailing text, which Go
rejects); the fractional separator may be `.` or `,`. -/
def parseCreationDate (s : String) : Option GoTime :=
  match s.data with
  | [y1, y2, y3, y4, d1, mo1, mo2, d2, da1, da2, t1, h1, h2, c1, mi1, mi2,
     c2, se1, se2, p1, f1, f2, f3, z1] =>
    if d1 = '-' ∧ d2 = '-' ∧ t1 = 'T' ∧ c1 = ':' ∧ c2 = ':' ∧
        (p1 = '.' ∨ p1 = ',') ∧ z1 = 'Z' then
      match num4 y1 y2 y3 y4, num2 mo1 mo2, num2 da1 da2, num2 h1 h2,
          num2 mi1 mi2, num2 se1 se2, num3 f1 f2 f3 with
      | some y, some mo, some da, some h, some mi, some se, some f =>
        mkParsed y mo da h mi se f
      | _, _, _, _, _, _, _ => none
    else none
  | [y1, y2, y3, y4, d1, mo1, mo2, d2, da1, da2, t1, h1, c1, mi1, mi2,
     c2, se1, se2, p1, f1, f2, f3, z1] =>
    if d1 = '-' ∧ d2 = '-' ∧ t1 = 'T' ∧ c1 = ':' ∧ c2 = ':' ∧
        (p1 = '.' ∨ p1 = ',') ∧ z1 = 'Z' then
      match num4 y1 y2 y3 y4, num2 mo1 mo2, num2 da1 da2, digitVal h1,
          num2 mi1 mi2, num2 se1 se2, num3 f1 f2 f3 with
      | some y, some mo, some da, some h, some mi, some se, some f =>
        mkParsed y mo da h mi se f
      | _, _, _, _, _, _, _ => none
    else none
  | _ => none

/-- `iTime, _ := time.Parse(...)`: the parse result with the error ignored,
so the zero `time.Time` on failure. -/
def parseOrZero (s : String) : GoTime := (parseCreationDate s).getD zeroTime

/-- The `lessFunc` closure passed to `sort` (lines 99-103): compares two
images by `iTime.After(jTime)` on their parsed creation dates. -/
def imageAfter (a b : Image) : Bool :=
  GoTime.after (parseOrZero a.creationDate) (parseOrZero b.creationDate)

/-! ## The hand-rolled `sort` routine (lines 142-151)

```
for n := 0; n < len-1; n++ {
    for m := len - 1; m > n; m-- {
        if !lessFunc(m-1, m) { swapFunc(m-1, m) }
    }
}
```

The routine only ever compares and swaps the adjacent pair `(m-1, m)`,
with `m` running from the right end `len-1` leftwards down to `n+1`.  On a
list this inner pass is structural recursion: the pairs inside the tail
(indices `>= n+1`) are processed first, right to left, then the pair at the
head — that is `pass` below.  After outer iteration `n` the inner loop never
visits indices `< n+1` again, so the outer loop fixes the head produced by
each pass and recurses on the tail; it runs `len-1` times, which `outerLoop`
receives as fuel. -/

def pass (less : α → α → Bool) : List α → List α
  | [] => []
  | [x] => [x]
  | x :: y :: rest =>
    match pass less (y :: rest) with
    | [] => x :: y :: rest
    | z :: rest' =>
      if less x z then x :: z :: rest' else z :: x :: rest'

def outerLoop (less : α → α → Bool) : Nat → List α → List α
  | 0, l => l
  | n + 1, l =>
    match pass less l with
    | [] => []
    | x :: rest => x :: outerLoop less n rest

/-- The `sort` routine of lines 142-151 (its `error` return is always
`nil` and ignored by the caller, so it is omitted). -/
def sort (less : α → α → Bool) (l : List α) : List α :=
  outerLoop less (l.length - 1) l

/-- Lines 96-107: sort the described images most-recent-first by parsed
creation date. -/
def sortImages (l : List Image) : List Image := sort imageAfter l

/-- One observable step: a `ui.Message` line or an issued API call. -/
inductive Event where
  | message (text : String)
  | deregisterImage (imageId : String)
  | deleteSnapshot (snapshotId : String)
deriving Repr, DecidableEq

def Event.isDeregister : Event → Bool
  | .deregisterImage _ => true
  | _ => false

def Event.isDeleteSnapshot : Event → Bool
  | .deleteSnapshot _ => true
  | _ => false

/-- The ids of the deregister calls in a trace, in order. -/
def deregIds (evs : List Event) : List String :=
  evs.filterMap fun e =>
    match e with
    | .deregisterImage id => some id
    | _ => none

/-- The texts of the `ui.Message` lines in a trace, in order. -/
def messageTexts (evs : List Event) : List String :=
  evs.filterMap fun e =>
    match e with
    | .message t => some t
    | _ => none

/-- The provider oracle: responses of the three EC2 calls the code issues.
`describeImages` answers the one tag-filtered `DescribeImages` call;
the two deletion calls answer per argument id. -/
structure Provider (ε : Type) where
  describeImages : Except ε (List Image)
  deregisterImage : String → Option ε
  deleteSnapshot : String → Option ε

variable {ε : Type} {α : Type}

/-- Lines 125-136: the snapshot cascade of one image.  Ephemeral devices
(`device.Ebs == nil`) are skipped; each remaining device issues one
`DeleteSnapshot` call; the first failing call aborts with its error. -/
def deleteSnapshots (P : Provider ε) : List BlockDeviceMapping → List Event × Option ε
  | [] => ([], none)
  | d :: rest =>
    match d.ebs with
    | none => deleteSnapshots P rest
    | some e =>
      match P.deleteSnapshot e.snapshotId with
      | some err => ([Event.deleteSnapshot e.snapshotId], some err)
      | none =>
        let r := deleteSnapshots P rest
        (Event.deleteSnapshot e.snapshotId :: r.1, r.2)

/-- Lines 114-136: the body of the deletion loop for one image of the
deletion set: emit "Deleting image: <id>", issue `DeregisterImage` (abort
with its error on failure), then run the snapshot cascade. -/
def processOneImage (P : Provider ε) (image : Image) : List Event × Option ε :=
  let msg := Event.message ("Deleting image: " ++ image.imageId)
  match P.deregisterImage image.imageId with
  | some e => ([msg, Event.deregisterImage image.imageId], some e)
  | none =>
    let r := deleteSnapshots P image.blockDeviceMappings
    (msg :: Event.deregisterImage image.imageId :: r.1, r.2)

/-- Lines 110-137: `for i, image := range output.Images`, skipping indices
`i < p.config.KeepReleases` (a Go `int`, hence `keep : Int` compared with
the index cast to `Int`), aborting on the first failing call. -/
def processImages (P : Provider ε) (keep : Int) : List Image → Nat → List Event × Option ε
  | [], _ => ([], none)
  | img :: rest, i =>
    if (i : Int) < keep then processImages P keep rest (i + 1)
    else
      match (processOneImage P img).2 with
      | some e => ((processOneImage P img).1, some e)
      | none =>
        let r := processImages P keep rest (i + 1)
        ((processOneImage P img).1 ++ r.1, r.2)

/-- Proof helper: the loop of lines 110-137 with no index skipping, i.e.
what the loop does to the part of the listing at and past `KeepReleases`
(and to the whole listing when `KeepReleases <= 0`). -/
def deleteAll (P : Provider ε) : List Image → List Event × Option ε
  | [] => ([], none)
  | img :: rest =>
    match (processOneImage P img).2 with
    | some e => ((processOneImage P img).1, some e)
    | none =>
      let r := deleteAll P rest
      ((processOneImage P img).1 ++ r.1, r.2)

/-- The concatenated per-image traces of a list of images (the trace of a
run in which every call succeeds). -/
def traceOf (P : Provider ε) : List Image → List Event
  | [] => []
  | img :: rest => (processOneImage P img).1 ++ traceOf P rest

/-- Lines 56-140: `PostProcess`.  Describe images (propagating a failure as
`(nil, true, err)`), sort them by creation date descending, run the
deletion loop (propagating its first failure as `(nil, true, err)`), and on
success return the input artifact unchanged with `(artifact, true, nil)`. -/
def PostProcess (P : Provider ε) (keep : Int) (artifact : α) :
    List Event × (Option α × Bool × Option ε) :=
  match P.describeImages with
  | .error e => ([], (none, true, some e))
  | .ok images =>
    let r := processImages P keep (sortImages images) 0
    match r.2 with
    | some e => (r.1, (none, true, some e))
    | none => (r.1, (some artifact, true, none))

/-! ## Concrete fixtures for evaluating the model

`img1`-`img3` are the scenario of spec section 8 (three images, newest
first, `ami-3` with no snapshot); `img0` carries a year-0 creation date
that parses to an instant before the zero `time.Time`; `badImg` carries an
unparsable creation date. -/

def img1 : Image := ⟨"ami-1", "2020-01-03T00:00:00.000Z", [⟨some ⟨"snap-1"⟩⟩]⟩

def img2 : Image := ⟨"ami-2", "2020-01-02T00:00:00.000Z", [⟨some ⟨"snap-2"⟩⟩]⟩

def img3 : Image := ⟨"ami-3", "2020-01-01T00:00:00.000Z", []⟩

def img0 : Image := ⟨"ami-0", "0000-06-15T12:00:00.000Z", []⟩

/-- A provider on which every call succeeds. -/
def okP : Provider String :=
  ⟨Except.ok [img1, img2, img3], fun _ => none, fun _ => none⟩

/-- A provider on which deregistering `ami-2` fails and all other calls
succeed. -/
def failDeregP : Provider String :=
  ⟨Except.ok [img1, img2, img3],
   fun id => if id = "ami-2" then some "deregister failed" else none,
   fun _ => none⟩

/-- A provider on which `DescribeImages` itself fails. -/
def describeFailP : Provider String :=
  ⟨Except.error "describe failed", fun _ => none, fun _ => none⟩

/-! ## Correctness of the hand-rolled sort -/

theorem deregIds_cons_message (t : String) (evs : List Event) :
    deregIds (Event.message t :: evs) = deregIds evs := rfl

theorem deregIds_cons_dereg (id : String) (evs : List Event) :
    deregIds (Event.deregisterImage id :: evs) = id :: deregIds evs := rfl

theorem deregIds_cons_snap (id : String) (evs : List Event) :
    deregIds (Event.deleteSnapshot id :: evs) = deregIds evs := rfl

theorem deregIds_append (a b : List Event) :
    deregIds (a ++ b) = deregIds a ++ deregIds b :=
  List.filterMap_append ..

theorem messageTexts_cons_message (t : String) (evs : List Event) :
    messageTexts (Event.message t :: evs) = t :: messageTexts evs := rfl

theorem messageTexts_cons_dereg (id : String) (evs : List Event) :
    messageTexts (Event.deregisterImage id :: evs) = messageTexts evs := rfl

theorem messageTexts_cons_snap (id : String) (evs : List Event) :
    messageTexts (Event.deleteSnapshot id :: evs) = messageTexts evs := rfl

theorem messageTexts_append (a b : List Event) :
    messageTexts (a ++ b) = messageTexts a ++ messageTexts b :=
  List.filterMap_append ..

theorem deleteSnapshots_cons_none (P : Provider ε) (rest : List BlockDeviceMapping)
    (d : BlockDeviceMapping) (hd : d.ebs = none) :
    deleteSnapshots P (d :: rest) = deleteSnapshots P rest := by
  obtain ⟨e⟩ := d
  cases hd
  rfl

theorem deleteSnapshots_cons_some (P : Provider ε) (rest : List BlockDeviceMapping)
    (e : Ebs) :
    deleteSnapshots P (⟨some e⟩ :: rest) =
      match P.deleteSnapshot e.snapshotId with
      | some err => ([Event.deleteSnapshot e.snapshotId], some err)
      | none =>
        (Event.deleteSnapshot e.snapshotId :: (deleteSnapshots P rest).1,
         (deleteSnapshots P rest).2) := rfl

theorem deregIds_deleteSnapshots (P : Provider ε) :
    (devs : List BlockDeviceMapping) → deregIds (deleteSnapshots P devs).1 = []
  | [] => rfl
  | ⟨none⟩ :: rest => by
    rw [deleteSnapshots_cons_none P rest _ rfl]
    exact deregIds_deleteSnapshots P rest
  | ⟨some e⟩ :: rest => by
    rw [deleteSnapshots_cons_some]
    cases hc : P.deleteSnapshot e.snapshotId with
    | some err => rfl
    | none =>
      show deregIds (Event.deleteSnapshot e.snapshotId :: (deleteSnapshots P rest).1) = []
      rw [deregIds_cons_snap]
      exact deregIds_deleteSnapshots P rest

theorem messageTexts_deleteSnapshots (P : Provider ε) :
    (devs : List BlockDeviceMapping) → messageTexts (deleteSnapshots P devs).1 = []
  | [] => rfl
  | ⟨none⟩ :: rest => by
    rw [deleteSnapshots_cons_none P rest _ rfl]
    exact messageTexts_deleteSnapshots P rest
  | ⟨some e⟩ :: rest => by
    rw [deleteSnapshots_cons_some]
    cases hc : P.deleteSnapshot e.snapshotId with
    | some err => rfl
    | none =>
      show messageTexts (Event.deleteSnapshot e.snapshotId :: (deleteSnapshots P rest).1) = []
      rw [messageTexts_cons_snap]
      exact messageTexts_deleteSnapshots P rest

theorem deleteSnapshots_events (P : Provider ε) :
    (devs : List BlockDeviceMapping) →
    ∀ ev ∈ (deleteSnapshots P devs).1, ev.isDeleteSnapshot = true
  | [] => by intro ev hev; exact absurd hev (List.not_mem_nil ev)
  | ⟨none⟩ :: rest => by
    rw [deleteSnapshots_cons_none P rest _ rfl]
    exact deleteSnapshots_events P rest
  | ⟨some e⟩ :: rest => by
    rw [deleteSnapshots_cons_some]
    cases hc : P.deleteSnapshot e.snapshotId with
    | some err =>
      intro ev hev
      rw [List.mem_singleton.mp hev]
      rfl
    | none =>
      show ∀ ev ∈ Event.deleteSnapshot e.snapshotId :: (deleteSnapshots P rest).1, _
      intro ev hev
      rcases List.mem_cons.mp hev with h1 | h1
      · rw [h1]; rfl
      · exact deleteSnapshots_events P rest ev h1

theorem processOneImage_def (P : Provider ε) (img : Image) :
    processOneImage P img =
      match P.deregisterImage img.imageId with
      | some e =>
        ([Event.message ("Deleting image: " ++ img.imageId),
          Event.deregisterImage img.imageId], some e)
      | none =>
        (Event.message ("Deleting image: " ++ img.imageId) ::
          Event.deregisterImage img.imageId ::
            (deleteSnapshots P img.blockDeviceMappings).1,
         (deleteSnapshots P img.blockDeviceMappings).2) := rfl

theorem processOneImage_fail (P : Provider ε) (img : Image) (e : ε)
    (h : P.deregisterImage img.imageId = some e) :
    processOneImage P img =
      ([Event.message ("Deleting image: " ++ img.imageId),
        Event.deregisterImage img.imageId], some e) := by
  rw [processOneImage_def, h]

theorem processOneImage_ok (P : Provider ε) (img : Image)
    (h : P.deregisterImage img.imageId = none) :
    processOneImage P img =
      (Event.message ("Deleting image: " ++ img.imageId) ::
        Event.deregisterImage img.imageId ::
          (deleteSnapshots P img.blockDeviceMappings).1,
       (deleteSnapshots P img.blockDeviceMappings).2) := by
  rw [processOneImage_def, h]

theorem deregIds_processOneImage (P : Provider ε) (img : Image) :
    deregIds (processOneImage P img).1 = [img.imageId] := by
  cases h : P.deregisterImage img.imageId with
  | some e => rw [processOneImage_fail P img e h]; rfl
  | none =>
    rw [processOneImage_ok P img h]
    show deregIds (Event.message _ :: Event.deregisterImage _ :: _) = _
    rw [deregIds_cons_message, deregIds_cons_dereg, deregIds_deleteSnapshots]

theorem messageTexts_processOneImage (P : Provider ε) (img : Image) :
    messageTexts (processOneImage P img).1 = ["Deleting image: " ++ img.imageId] := by
  cases h : P.deregisterImage img.imageId with
  | some e => rw [processOneImage_fail P img e h]; rfl
  | none =>
    rw [processOneImage_ok P img h]
    show messageTexts (Event.message _ :: Event.deregisterImage _ :: _) = _
    rw [messageTexts_cons_message, messageTexts_cons_dereg, messageTexts_deleteSnapshots]

theorem traceOf_cons (P : Provider ε) (img : Image) (rest : List Image) :
    traceOf P (img :: rest) = (processOneImage P img).1 ++ traceOf P rest := rfl

theorem deregIds_traceOf (P : Provider ε) :
    (l : List Image) → deregIds (traceOf P l) = l.map Image.imageId
  | [] => rfl
  | img :: rest => by
    rw [traceOf_cons, deregIds_append, deregIds_processOneImage,
      deregIds_traceOf P rest, List.map_cons]
    rfl

theorem messageTexts_traceOf (P : Provider ε) :
    (l : List Image) →
    messageTexts (traceOf P l) = l.map (fun img => "Deleting image: " ++ img.imageId)
  | [] => rfl
  | img :: rest => by
    rw [traceOf_cons, messageTexts_append, messageTexts_processOneImage,
      messageTexts_traceOf P rest, List.map_cons]
    rfl

theorem deleteAll_cons (P : Provider ε) (img : Image) (rest : List Image) :
    deleteAll P (img :: rest) =
      match (processOneImage P img).2 with
      | some e => ((processOneImage P img).1, some e)
      | none =>
        ((processOneImage P img).1 ++ (deleteAll P rest).1,
         (deleteAll P rest).2) := rfl

theorem deleteAll_cons_fail (P : Provider ε) (img : Image) (rest : List Image) (e : ε)
    (h : (processOneImage P img).2 = some e) :
    deleteAll P (img :: rest) = ((processOneImage P img).1, some e) := by
  rw [deleteAll_cons, h]

theorem deleteAll_cons_ok (P : Provider ε) (img : Image) (rest : List Image)
    (h : (processOneImage P img).2 = none) :
    deleteAll P (img :: rest) =
      ((processOneImage P img).1 ++ (deleteAll P rest).1, (deleteAll P rest).2) := by
  rw [deleteAll_cons, h]

theorem deleteAll_of_success (P : Provider ε) :
    (l : List Image) → (∀ img ∈ l, (processOneImage P img).2 = none) →
    deleteAll P l = (traceOf P l, none)
  | [], _ => rfl
  | img :: rest, h => by
    have h1 := h img (List.mem_cons_self img rest)
    have ih := deleteAll_of_success P rest (fun i hi => h i (List.mem_cons_of_mem img hi))
    rw [deleteAll_cons_ok P img rest h1, ih, traceOf_cons]

theorem success_of_deleteAll (P : Provider ε) :
    (l : List Image) → (deleteAll P l).2 = none →
    ∀ img ∈ l, (processOneImage P img).2 = none
  | [], _, img, him => absurd him (List.not_mem_nil img)
  | img0 :: rest, h, img, him => by
    cases h1 : (processOneImage P img0).2 with
    | some e =>
      rw [deleteAll_cons_fail P img0 rest e h1] at h
      exact absurd h (by simp)
    | none =>
      rw [deleteAll_cons_ok P img0 rest h1] at h
      rcases List.mem_cons.mp him with h2 | h2
      · rw [h2]; exact h1
      · exact success_of_deleteAll P rest h img h2

theorem deleteAll_first_fail (P : Provider ε) (e : ε) (bad : Image) :
    (pre : List Image) → (post : List Image) →
    (∀ img ∈ pre, (processOneImage P img).2 = none) →
    (processOneImage P bad).2 = some e →
    deleteAll P (pre ++ bad :: post) =
      (traceOf P pre ++ (processOneImage P bad).1, some e)
  | [], post, _, hbad => by
    rw [List.nil_append, deleteAll_cons_fail P bad post e hbad]
    rfl
  | img0 :: pre, post, hpre, hbad => by
    have h1 := hpre img0 (List.mem_cons_self img0 pre)
    have ih := deleteAll_first_fail P e bad pre post
      (fun i hi => hpre i (List.mem_cons_of_mem img0 hi)) hbad
    rw [List.cons_append, deleteAll_cons_ok P img0 _ h1, ih, traceOf_cons,
      List.append_assoc]

theorem processImages_cons (P : Provider ε) (keep : Int) (img : Image)
    (rest : List Image) (i : Nat) :
    processImages P keep (img :: rest) i =
      if (i : Int) < keep then processImages P keep rest (i + 1)
      else
        match (processOneImage P img).2 with
        | some e => ((processOneImage P img).1, some e)
        | none =>
          ((processOneImage P img).1 ++ (processImages P keep rest (i + 1)).1,
           (processImages P keep rest (i + 1)).2) := rfl

/-- The deletion loop of lines 110-137 acts exactly like unconditional
deletion of the images at positions at and past `KeepReleases` in the
sorted listing: the first `max 0 KeepReleases` images are skipped
untouched. -/
theorem processImages_eq_drop (P : Provider ε) (keep : Int) :
    (l : List Image) → (i : Nat) →
    processImages P keep l i = deleteAll P (l.drop (keep.toNat - i))
  | [], i => by rw [List.drop_nil]; rfl
  | img :: rest, i => by
    have ih := processImages_eq_drop P keep rest (i + 1)
    rw [processImages_cons]
    by_cases h : (i : Int) < keep
    · rw [if_pos h, ih]
      have h1 : keep.toNat - i = (keep.toNat - (i + 1)) + 1 := by omega
      rw [h1, List.drop_succ_cons]
    · rw [if_neg h]
      have h0 : keep.toNat - i = 0 := by omega
      have h2 : keep.toNat - (i + 1) = 0 := by omega
      rw [h0, List.drop_zero, ih, h2, List.drop_zero, deleteAll_cons]

theorem PostProcess_def (P : Provider ε) (keep : Int) (a : α) :
    PostProcess P keep a =
      match P.describeImages with
      | .error e => ([], (none, true, some e))
      | .ok images =>
        match (processImages P keep (sortImages images) 0).2 with
        | some e =>
          ((processImages P keep (sortImages images) 0).1, (none, true, some e))
        | none =>
          ((processImages P keep (sortImages images) 0).1,
           (some a, true, none)) := rfl

theorem PostProcess_describe_fail (P : Provider ε) (keep : Int) (a : α) (e : ε)
    (h : P.describeImages = .error e) :
    PostProcess P keep a = ([], (none, true, some e)) := by
  rw [PostProcess_def, h]

theorem PostProcess_loop_fail (P : Provider ε) (keep : Int) (a : α) (e : ε)
    (images : List Image) (hd : P.describeImages = .ok images)
    (h : (processImages P keep (sortImages images) 0).2 = some e) :
    PostProcess P keep a =
      ((processImages P keep (sortImages images) 0).1, (none, true, some e)) := by
  rw [PostProcess_def, hd]
  show (match (processImages P keep (sortImages images) 0).2 with
    | some e =>
      ((processImages P keep (sortImages images) 0).1, (none, true, some e))
    | none =>
      ((processImages P keep (sortImages images) 0).1,
       (some a, true, none))) = _
  rw [h]

theorem PostProcess_loop_ok (P : Provider ε) (keep : Int) (a : α)
    (images : List Image) (hd : P.describeImages = .ok images)
    (h : (processImages P keep (sortImages images) 0).2 = none) :
    PostProcess P keep a =
      ((processImages P keep (sortImages images) 0).1, (some a, true, none)) := by
  rw [PostProcess_def, hd]
  show (match (processImages P keep (sortImages images) 0).2 with
    | some e =>
      ((processImages P keep (sortImages images) 0).1, (none, true, some e))
    | none =>
      ((processImages P keep (sortImages images) 0).1,
       (some a, true, none))) = _
  rw [h]

/-- A run that describes `images` and finishes with a `nil` error: its full
trace is the concatenated per-image traces of the deletion set (the sorted
listing with the first `keep.toNat` entries dropped), its result triple is
`(artifact, true, nil)`, and every image of the deletion set was processed
without any failing call. -/
theorem run_success_trace (P : Provider ε) (keep : Int) (a : α) (images : List Image)
    (hd : P.describeImages = .ok images)
    (hs : (PostProcess P keep a).2.2.2 = none) :
    (PostProcess P keep a).1 = traceOf P ((sortImages images).drop keep.toNat) ∧
    (PostProcess P keep a).2 = (some a, true, none) ∧
    ∀ img ∈ (sortImages images).drop keep.toNat,
      (processOneImage P img).2 = none := by
  have hrun0 : (processImages P keep (sortImages images) 0).2 = none := by
    cases hr : (processImages P keep (sortImages images) 0).2 with
    | none => rfl
    | some e =>
      rw [PostProcess_loop_fail P keep a e images hd hr] at hs
      exact absurd hs (by simp)
  have hdrop := processImages_eq_drop P keep (sortImages images) 0
  rw [Nat.sub_zero] at hdrop
  have hda : (deleteAll P ((sortImages images).drop keep.toNat)).2 = none := by
    rw [← hdrop]
    exact hrun0
  have hsucc := success_of_deleteAll P ((sortImages images).drop keep.toNat) hda
  have hpp := PostProcess_loop_ok P keep a images hd hrun0
  refine ⟨?_, ?_, hsucc⟩
  · rw [hpp]
    show (processImages P keep (sortImages images) 0).1 = _
    rw [hdrop, deleteAll_of_success P _ hsucc]
  · rw [hpp]

/-! ## The claims -/

/-- C3: per image of the deletion set (the loop body of lines 114-136): if
the image's deregister call fails, its trace contains zero delete-snapshot
calls and the run carries that error; if the deregister call succeeds, the
image's trace is the message, then the deregister call, then the snapshot
cascade — every delete-snapshot call sits strictly after the successful
deregister call. -/
theorem c3_snapshots_after_deregister (P : Provider ε) (img : Image) :
    (∀ e, P.deregisterImage img.imageId = some e →
      (processOneImage P img).1.countP Event.isDeleteSnapshot = 0 ∧
        (processOneImage P img).2 = some e) ∧
    (P.deregisterImage img.imageId = none →
      (processOneImage P img).1 =
        Event.message ("Deleting image: " ++ img.imageId) ::
          Event.deregisterImage img.imageId ::
            (deleteSnapshots P img.blockDeviceMappings).1 ∧
      ∀ ev ∈ (deleteSnapshots P img.blockDeviceMappings).1,
        Event.isDeleteSnapshot ev = true) := by
  constructor
  · intro e he
    rw [processOneImage_fail P img e he]
    exact ⟨rfl, rfl⟩
  · intro he
    rw [processOneImage_ok P img he]
    exact ⟨rfl, deleteSnapshots_events P img.blockDeviceMappings⟩

/-- C4: on the first failing call the run stops and returns that error
unmodified: if the deletion set splits as `pre ++ bad :: post` where every
image of `pre` processes without failure and `bad`'s processing fails with
`e` (at its deregister call or at one of its snapshot deletions), then the
whole run's trace is exactly the complete traces of `pre` followed by
`bad`'s partial trace — nothing of `post` is ever touched — and the result
is `(nil, true, e)`. -/
theorem c4_abort_on_first_failure (P : Provider ε) (keep : Int) (a : α)
    (images pre post : List Image) (bad : Image) (e : ε)
    (hd : P.describeImages = .ok images)
    (hsplit : (sortImages images).drop keep.toNat = pre ++ bad :: post)
    (hpre : ∀ img ∈ pre, (processOneImage P img).2 = none)
    (hbad : (processOneImage P bad).2 = some e) :
    PostProcess P keep a =
      (traceOf P pre ++ (processOneImage P bad).1, (none, true, some e)) := by
  have hdrop := processImages_eq_drop P keep (sortImages images) 0
  rw [Nat.sub_zero, hsplit] at hdrop
  have hda := deleteAll_first_fail P e bad pre post hpre hbad
  have h2 : (processImages P keep (sortImages images) 0).2 = some e := by
    rw [hdrop, hda]
  rw [PostProcess_loop_fail P keep a e images hd h2, hdrop, hda]

/-- C6: a negative `keep_releases` behaves exactly like zero — the whole
run is unchanged, and the deletion loop deletes every image of the sorted
listing (the index test `i < KeepReleases` never fires). -/
theorem c6_negative_keep (P : Provider ε) (keep : Int) (a : α) (hneg : keep < 0) :
    PostProcess P keep a = PostProcess P 0 a ∧
    ∀ images, P.describeImages = .ok images →
      processImages P keep (sortImages images) 0 = deleteAll P (sortImages images) := by
  have key : ∀ l : List Image, processImages P keep l 0 = deleteAll P l := by
    intro l
    have h := processImages_eq_drop P keep l 0
    have h0 : keep.toNat - 0 = 0 := by omega
    rw [h0, List.drop_zero] at h
    exact h
  have key0 : ∀ l : List Image, processImages P 0 l 0 = deleteAll P l := by
    intro l
    have h := processImages_eq_drop P 0 l 0
    rw [show (0 : Int).toNat - 0 = 0 from rfl, List.drop_zero] at h
    exact h
  refine ⟨?_, fun images _ => key (sortImages images)⟩
  cases hd : P.describeImages with
  | error e =>
    rw [PostProcess_describe_fail P keep a e hd, PostProcess_describe_fail P 0 a e hd]
  | ok images =>
    have heq : processImages P keep (sortImages images) 0 =
        processImages P 0 (sortImages images) 0 := by
      rw [key, key0]
    cases hr : (processImages P keep (sortImages images) 0).2 with
    | some e =>
      rw [PostProcess_loop_fail P keep a e images hd hr,
        PostProcess_loop_fail P 0 a e images hd (by rw [← heq]; exact hr), heq]
    | none =>
      rw [PostProcess_loop_ok P keep a images hd hr,
        PostProcess_loop_ok P 0 a images hd (by rw [← heq]; exact hr), heq]

/-- C7: a device mapping with no backing snapshot (`device.Ebs == nil`) is
skipped: the snapshot cascade over a device list beginning with such a
device is identical — same calls, same error status — to the cascade over
the remaining devices, so the ephemeral device produces no delete-snapshot
call and is not an error. -/
theorem c7_ephemeral_skip (P : Provider ε) (devs : List BlockDeviceMapping)
    (d : BlockDeviceMapping) (hd : d.ebs = none) :
    deleteSnapshots P (d :: devs) = deleteSnapshots P devs :=
  deleteSnapshots_cons_none P devs d hd

/-- C8: a run that completes without error returns the triple
`(artifact, true, nil)` with the input artifact unchanged, and its
user-visible report — the emitted `"Deleting image: <id>"` messages — lists
exactly the identifiers of the successfully deleted images (the deletion
set, matching the issued deregister calls one for one, all of which
succeeded). -/
theorem c8_success_report (P : Provider ε) (keep : Int) (a : α) (images : List Image)
    (hd : P.describeImages = .ok images)
    (hs : (PostProcess P keep a).2.2.2 = none) :
    (PostProcess P keep a).2 = (some a, true, none) ∧
    messageTexts (PostProcess P keep a).1 =
      ((sortImages images).drop keep.toNat).map
        (fun img => "Deleting image: " ++ img.imageId) ∧
    deregIds (PostProcess P keep a).1 =
      ((sortImages images).drop keep.toNat).map Image.imageId := by
  obtain ⟨htrace, hres, -⟩ := run_success_trace P keep a images hd hs
  refine ⟨hres, ?_, ?_⟩
  · rw [htrace, messageTexts_traceOf]
  · rw [htrace, deregIds_traceOf]

/-- C9: on every error path the keep flag is `true` and the provider error
is returned unmodified together with a `nil` artifact: a `DescribeImages`
failure yields `(nil, true, err)` with an empty trace, and a failure inside
the deletion loop (a failing `DeregisterImage` or `DeleteSnapshot` call)
yields `(nil, true, err)`; the keep flag is `true` on every path of
`PostProcess`. -/
theorem c9_error_returns_nil_artifact (P : Provider ε) (keep : Int) (a : α) :
    (PostProcess P keep a).2.2.1 = true ∧
    (∀ e, P.describeImages = .error e →
      PostProcess P keep a = ([], (none, true, some e))) ∧
    (∀ images e, P.describeImages = .ok images →
      (processImages P keep (sortImages images) 0).2 = some e →
      (PostProcess P keep a).2 = (none, true, some e)) := by
  refine ⟨?_, fun e he => PostProcess_describe_fail P keep a e he,
    fun images e hd h => by rw [PostProcess_loop_fail P keep a e images hd h]⟩
  cases hdd : P.describeImages with
  | error e => rw [PostProcess_describe_fail P keep a e hdd]
  | ok images =>
    cases hr : (processImages P keep (sortImages images) 0).2 with
    | some e => rw [PostProcess_loop_fail P keep a e images hdd hr]
    | none => rw [PostProcess_loop_ok P keep a images hdd hr]

/-- C10: for every image of the deletion set the message
`"Deleting image: <id>"` is the first trace entry of the image's
processing, placed before the deregister call; when the deregister call
fails the image's trace is exactly the message followed by the failed
call, so the message was emitted although the image was not deleted. -/
theorem c10_message_before_attempt (P : Provider ε) (img : Image) :
    (∃ rest, (processOneImage P img).1 =
      Event.message ("Deleting image: " ++ img.imageId) ::
        Event.deregisterImage img.imageId :: rest) ∧
    ∀ e, P.deregisterImage img.imageId = some e →
      (processOneImage P img).1 =
        [Event.message ("Deleting image: " ++ img.imageId),
         Event.deregisterImage img.imageId] ∧
      (processOneImage P img).2 = some e := by
  constructor
  · cases h : P.deregisterImage img.imageId with
    | some e => exact ⟨[], by rw [processOneImage_fail P img e h]⟩
    | none =>
      exact ⟨(deleteSnapshots P img.blockDeviceMappings).1,
        by rw [processOneImage_ok P img h]⟩
  · intro e he
    rw [processOneImage_fail P img e he]
    exact ⟨rfl, rfl⟩

/-! ## Witnesses: the claim theorems applied at concrete inputs -/

theorem c3_snapshots_after_deregister_witness :
    (processOneImage failDeregP img2).1.countP Event.isDeleteSnapshot = 0 ∧
    (processOneImage failDeregP img2).2 = some "deregister failed" :=
  (c3_snapshots_after_deregister failDeregP img2).1 "deregister failed" (by decide)

theorem c4_abort_on_first_failure_witness :
    PostProcess failDeregP 0 () =
      (traceOf failDeregP [img1] ++ (processOneImage failDeregP img2).1,
       (none, true, some "deregister failed")) :=
  c4_abort_on_first_failure failDeregP 0 () [img1, img2, img3] [img1] [img3] img2
    "deregister failed" rfl (by decide) (by decide) (by decide)

theorem c6_negative_keep_witness :
    PostProcess okP (-1) () = PostProcess okP 0 () :=
  (c6_negative_keep okP (-1) () (by decide)).1

theorem c7_ephemeral_skip_witness :
    deleteSnapshots okP [(⟨none⟩ : BlockDeviceMapping)] = deleteSnapshots okP [] :=
  c7_ephemeral_skip okP [] ⟨none⟩ rfl

theorem c8_success_report_witness :
    (PostProcess okP 1 ()).2 = (some (), true, none) :=
  (c8_success_report okP 1 () [img1, img2, img3] rfl (by decide)).1

theorem c9_error_returns_nil_artifact_witness :
    PostProcess describeFailP 1 () = ([], (none, true, some "describe failed")) :=
  (c9_error_returns_nil_artifact describeFailP 1 ()).2.1 "describe failed" rfl

theorem c10_message_before_attempt_witness :
    (processOneImage failDeregP img2).1 =
      [Event.message ("Deleting image: " ++ img2.imageId),
       Event.deregisterImage img2.imageId] ∧
    (processOneImage failDeregP img2).2 = some "deregister failed" :=
  (c10_message_before_attempt failDeregP img2).2 "deregister failed" (by decide)

end AmiMgmt
